import Mathlib

/-!
Verification of the NextAuth route of the exfilzone repository
(`src/app/api/auth/[...nextauth]/route.ts`).

The file shallowly embeds the pieces of the route that the specification
talks about:

* `isAdminEmail` — the admin allow-list check over two environment entries;
* the `signIn` callback — the identity reconciler: look a user up by
  lower-cased email, create a record with fixed defaults when absent,
  escalate role/rank and refresh the last-login timestamp when present,
  and refuse the sign-in when a store operation throws;
* the `jwt` callback — field projection from the store into the token at
  initial issuance and on the `"update"` trigger, plus the
  `Object.assign(token, session)` merge;
* the `session` callback — the pure copy of token fields into the outward
  session object.

The document store is modelled as a list of records together with a
fresh-id counter; store operations that may throw are driven by explicit
failure flags, and each executed store operation is recorded in a trace so
that "exactly one save" and "no retry" are statable.  JavaScript objects
with dynamic keys (the JWT token, the session payload, `session.user`) are
modelled as association lists from string keys to a small value type, so
that frame properties ("only these fields are overwritten") quantify over
all keys.  `toLowerCase` is embedded as a character-wise lower-casing.
-/

namespace ExfilZone

/-- Character-wise lower-casing, the embedding of JS `toLowerCase`. -/
def lowerStr (s : String) : String := ⟨s.data.map Char.toLower⟩

/-- The two admin allow-list environment entries
(`ADMIN_EMAIL_1`, `ADMIN_EMAIL_2`); `none` models an unset variable. -/
structure Env where
  admin1 : Option String
  admin2 : Option String
deriving DecidableEq, Repr

/-- `isAdminEmail` from the route: collect the configured entries, drop
falsy ones (`filter(Boolean)` removes unset and empty entries), lower-case
them, and test membership of the lower-cased input. -/
def isAdminEmail (env : Env) (email : String) : Bool :=
  let adminEmails :=
    (([env.admin1, env.admin2].filterMap id).filter (fun s => s ≠ "")).map lowerStr
  adminEmails.contains (lowerStr email)

/-- The nested contribution-statistics struct of a user record. -/
structure Stats where
  contributionPoints : Nat
  feedbackSubmitted : Nat
  bugsReported : Nat
  featuresProposed : Nat
  dataCorrections : Nat
  correctionsAccepted : Nat
deriving DecidableEq, Repr

/-- The nested preference struct of a user record. -/
structure Preferences where
  emailNotifications : Bool
  publicProfile : Bool
  showContributions : Bool
deriving DecidableEq, Repr

/-- A document of the user collection.  `roles` is optional because the
route guards every read of it (`dbUser.roles?.includes`, `dbUser.roles || []`).
Timestamps are abstracted to naturals. -/
structure UserRecord where
  id : Nat
  email : Option String
  displayName : Option String
  username : String
  image : Option String
  vrHeadset : Option String
  level : Nat
  rank : String
  badges : List String
  stats : Stats
  roles : Option (List String)
  preferences : Preferences
  isActive : Bool
  isBanned : Bool
  lastLoginAt : Nat
deriving DecidableEq, Repr

/-- The role list of a record, reading an absent list as empty
(the route's `dbUser.roles || []`). -/
def rolesOf (r : UserRecord) : List String := r.roles.getD []

/-- `dbUser.roles?.includes('admin')` — `undefined` is falsy. -/
def rolesIncludesAdmin (r : UserRecord) : Bool :=
  match r.roles with
  | none => false
  | some l => l.contains "admin"

/-- The document store: the user collection plus a fresh-`_id` counter. -/
structure DB where
  users : List UserRecord
  nextId : Nat
deriving DecidableEq, Repr

/-- `User.findOne({ email: e })`. -/
def findByEmail (db : DB) (e : Option String) : Option UserRecord :=
  db.users.find? (fun r => r.email == e)

/-- `User.findById(i)` (ids are serialized to strings in tokens). -/
def findById (db : DB) (i : String) : Option UserRecord :=
  db.users.find? (fun r => toString r.id == i)

/-- `dbUser.save()` for an existing document: replace the document with
the matching `_id`. -/
def saveExistingRec (db : DB) (r : UserRecord) : DB :=
  { db with users := db.users.map (fun x => if x.id == r.id then r else x) }

/-- The verified external identity handed to the callbacks
(`user` of NextAuth). -/
structure AuthUser where
  id : Option String
  email : Option String
  name : Option String
  image : Option String
deriving DecidableEq, Repr

/-- Failure injection for the store operations inside the `signIn`
callback's `try` block: a set flag makes the corresponding operation
throw. -/
structure Failures where
  connectFails : Bool
  findOneFails : Bool
  saveNewFails : Bool
  saveExistingFails : Bool
deriving DecidableEq, Repr

/-- No store operation throws. -/
def noFailures : Failures := ⟨false, false, false, false⟩

/-- Tags for the store operations the `signIn` callback performs, recorded
in execution order. -/
inductive StoreOp where
  | connect
  | findOne
  | saveNew
  | saveExisting
deriving DecidableEq, Repr

/-- Result of the `signIn` callback: the returned boolean, the store
afterwards, the (possibly mutated) identity object, and the trace of store
operations attempted. -/
structure Outcome where
  allowed : Bool
  db : DB
  user : AuthUser
  trace : List StoreOp
deriving DecidableEq, Repr

/-- The new-user document built in the `signIn` callback when no record
matches the email: lower-cased email, generated username, fixed
gamification/preference defaults, and rank/roles decided by the admin
allow-list (`user.email || ''`). -/
def mkNewUser (env : Env) (u : AuthUser) (uname : String) (now : Nat)
    (newId : Nat) : UserRecord :=
  { id := newId
    email := u.email.map lowerStr
    displayName := u.name
    username := uname
    image := u.image
    vrHeadset := none
    level := 1
    rank := if isAdminEmail env (u.email.getD "") then "elite" else "recruit"
    badges := []
    stats :=
      { contributionPoints := 0
        feedbackSubmitted := 0
        bugsReported := 0
        featuresProposed := 0
        dataCorrections := 0
        correctionsAccepted := 0 }
    roles := some (if isAdminEmail env (u.email.getD "") then ["user", "admin"] else ["user"])
    preferences :=
      { emailNotifications := false
        publicProfile := true
        showContributions := true }
    isActive := true
    isBanned := false
    lastLoginAt := now }

/-- The existing-record branch of the `signIn` callback as a pure record
update: if the email is truthy and allow-listed and the record does not
yet hold role `"admin"`, append `"admin"` and set rank to `"elite"`; then
unconditionally refresh `lastLoginAt`. -/
def updateExisting (env : Env) (email : Option String) (now : Nat)
    (r : UserRecord) : UserRecord :=
  let r1 :=
    match email with
    | some e =>
      if e ≠ "" then
        if isAdminEmail env e then
          if rolesIncludesAdmin r then r
          else { r with roles := some (rolesOf r ++ ["admin"]), rank := "elite" }
        else r
      else r
    | none => r
  { r1 with lastLoginAt := now }

/-- The `signIn` callback.  For providers `discord`/`google` it connects,
looks the user up by lower-cased email, creates or updates the record, and
writes the store `_id` back onto the identity; any store error inside the
`try` block is caught and turns into a refusal (`false`) with the store
left as it was.  Any other provider is passed through (`true`).
`uname` is the result of the external username generator
(`ensureUniqueUsername(generateUsername(user))`). -/
def signIn (env : Env) (fl : Failures) (uname : String) (now : Nat)
    (provider : Option String) (u : AuthUser) (db : DB) : Outcome :=
  if provider == some "discord" || provider == some "google" then
    if fl.connectFails then ⟨false, db, u, [.connect]⟩
    else if fl.findOneFails then ⟨false, db, u, [.connect, .findOne]⟩
    else
      match findByEmail db (u.email.map lowerStr) with
      | none =>
        let newR := mkNewUser env u uname now db.nextId
        if fl.saveNewFails then ⟨false, db, u, [.connect, .findOne, .saveNew]⟩
        else
          ⟨true, ⟨db.users ++ [newR], db.nextId + 1⟩,
            { u with id := some (toString db.nextId) },
            [.connect, .findOne, .saveNew]⟩
      | some r =>
        let r' := updateExisting env u.email now r
        if fl.saveExistingFails then ⟨false, db, u, [.connect, .findOne, .saveExisting]⟩
        else
          ⟨true, saveExistingRec db r',
            { u with id := some (toString r.id) },
            [.connect, .findOne, .saveExisting]⟩
  else ⟨true, db, u, []⟩

/-! ## Tokens and sessions as string-keyed objects -/

/-- Values a token / session field can hold in this route. -/
inductive JVal where
  | str (s : String)
  | bool (b : Bool)
  | strList (l : List String)
  | undefined
deriving DecidableEq, Repr

/-- A JavaScript object with dynamic keys, as an association list. -/
abbrev JMap := List (String × JVal)

/-- Property read: value of the first binding of `k`, if any. -/
def getK (t : JMap) (k : String) : Option JVal :=
  match t with
  | [] => none
  | (k0, v0) :: rest => if k0 == k then some v0 else getK rest k

/-- Property write: update the first binding of `k`, or append one. -/
def setK (t : JMap) (k : String) (v : JVal) : JMap :=
  match t with
  | [] => [(k, v)]
  | (k0, v0) :: rest => if k0 == k then (k, v) :: rest else (k0, v0) :: setK rest k v

/-- Read with JS semantics: an absent property is `undefined`. -/
def jget (t : JMap) (k : String) : JVal := (getK t k).getD .undefined

/-- An optional string as a JS value (`undefined` when absent). -/
def jOptStr : Option String → JVal
  | some s => .str s
  | none => .undefined

/-- `Object.assign(t, s)`: copy every binding of `s` into `t`, in order. -/
def objAssign (t : JMap) (s : JMap) : JMap :=
  s.foldl (fun acc p => setK acc p.1 p.2) t

/-- The six fields both projection sites of the `jwt` callback write:
`displayName`, `username`, `image`, `rank`, `roles` (defaulting to
`["user"]` when the document has none), `isBanned`. -/
def projectFields (t : JMap) (r : UserRecord) : JMap :=
  let t := setK t "displayName" (jOptStr r.displayName)
  let t := setK t "username" (.str r.username)
  let t := setK t "image" (jOptStr r.image)
  let t := setK t "rank" (.str r.rank)
  let t := setK t "roles" (.strList (r.roles.getD ["user"]))
  setK t "isBanned" (.bool r.isBanned)

/-- The keys the `"update"`-trigger refresh of the `jwt` callback writes. -/
def refreshKeys : List String :=
  ["displayName", "username", "image", "rank", "roles", "isBanned"]

/-- The `jwt` callback.  On initial issuance (`user` and `account` both
present) it fetches the record by the id the `signIn` callback wrote onto
the identity and, when found, sets `token.id` and the six projected
fields.  On `trigger === "update"` it re-fetches by `token.id`, overwrites
the six projected fields when the record is found, and finally merges a
caller-supplied session payload with `Object.assign`. -/
def jwtCb (db : DB) (token : JMap) (user : Option String) (account : Bool)
    (trigger : Option String) (session : Option JMap) : JMap :=
  let t1 :=
    match user, account with
    | some uid, true =>
      match findById db uid with
      | some r => projectFields (setK token "id" (.str uid)) r
      | none => token
    | _, _ => token
  if trigger == some "update" then
    let t2 :=
      match getK t1 "id" with
      | some (.str tid) =>
        match findById db tid with
        | some r => projectFields t1 r
        | none => t1
      | _ => t1
    match session with
    | some s => objAssign t2 s
    | none => t2
  else t1

/-- The outward session object: its `user` sub-object (absent when the
framework supplies none) and the remaining session content, untouched by
the callback. -/
structure SessionObj where
  user : Option JMap
  expires : String
deriving DecidableEq, Repr

/-- The keys the `session` callback copies from the token into
`session.user`, in source order. -/
def sessionKeys : List String :=
  ["id", "username", "displayName", "image", "rank", "roles", "isBanned"]

/-- The `session` callback: when `session?.user` and the token are both
present, copy the token's fields into `session.user`; no store access. -/
def sessionCb (sess : SessionObj) (token : Option JMap) : SessionObj :=
  match sess.user, token with
  | some u, some t =>
    let u := setK u "id" (jget t "id")
    let u := setK u "username" (jget t "username")
    let u := setK u "displayName" (jget t "displayName")
    let u := setK u "image" (jget t "image")
    let u := setK u "rank" (jget t "rank")
    let u := setK u "roles" (jget t "roles")
    let u := setK u "isBanned" (jget t "isBanned")
    { sess with user := some u }
  | _, _ => sess

/-- The last binding of a key in a payload; `Object.assign` makes the last
writer win. -/
def lookupLast (s : JMap) (k : String) : Option JVal :=
  match s with
  | [] => none
  | (k0, v0) :: rest =>
    match lookupLast rest k with
    | some v => some v
    | none => if k0 == k then some v0 else none

/-- A run of the `signIn` callback hits a throwing store operation: the
first enabled failure flag along the control path is reached. -/
def failureHit (fl : Failures) (db : DB) (e : Option String) : Prop :=
  fl.connectFails = true ∨
  (fl.connectFails = false ∧ fl.findOneFails = true) ∨
  (fl.connectFails = false ∧ fl.findOneFails = false ∧
    findByEmail db e = none ∧ fl.saveNewFails = true) ∨
  (fl.connectFails = false ∧ fl.findOneFails = false ∧
    (∃ r, findByEmail db e = some r) ∧ fl.saveExistingFails = true)

/-! ## Concrete data for witnesses and counterexamples -/

/-- An environment whose first allow-list entry is configured. -/
def envW : Env := ⟨some "Admin@X.com", none⟩

/-- An existing non-admin user record. -/
def rW : UserRecord :=
  ⟨3, some "admin@x.com", some "Ada", "ada", none, none, 1, "recruit", [],
    ⟨0, 0, 0, 0, 0, 0⟩, some ["user"], ⟨false, true, true⟩, true, false, 0⟩

/-- The federated identity signing in with the allow-listed email. -/
def uW : AuthUser := ⟨none, some "Admin@X.com", some "Ada", none⟩

/-- A store holding just `rW`. -/
def dbW : DB := ⟨[rW], 4⟩

/-- A record whose projected fields all differ from the token `tokC7`. -/
def rC7 : UserRecord :=
  ⟨0, some "z@x.com", some "D2", "u2", some "i2", none, 1, "elite", [],
    ⟨0, 0, 0, 0, 0, 0⟩, some ["user", "admin"], ⟨false, true, true⟩, true,
    true, 0⟩

/-- A store holding just `rC7`. -/
def dbC7 : DB := ⟨[rC7], 1⟩

/-- A token whose six projected fields all differ from `rC7`. -/
def tokC7 : JMap :=
  [("id", .str "0"), ("displayName", .str "old"), ("username", .str "old"),
   ("image", .undefined), ("rank", .str "recruit"),
   ("roles", .strList ["user"]), ("isBanned", .bool false)]

/-- A token with values on all seven session-projected fields. -/
def tokC8 : JMap :=
  [("id", .str "5"), ("username", .str "u"), ("displayName", .str "d"),
   ("image", .str "i"), ("rank", .str "r"), ("roles", .strList ["user"]),
   ("isBanned", .bool true)]

/-- A session whose `user` object starts empty. -/
def sessC8 : SessionObj := ⟨some [], "E"⟩

/-! ## Basic lemmas about the object model -/

theorem getK_setK (t : JMap) (k k' : String) (v : JVal) :
    getK (setK t k v) k' = if k = k' then some v else getK t k' := by
  induction t with
  | nil =>
    by_cases h : k = k' <;> simp [setK, getK, h]
  | cons p rest ih =>
    obtain ⟨k0, v0⟩ := p
    by_cases h0 : k0 = k
    · subst h0
      by_cases h : k0 = k' <;> simp [setK, getK, h]
    · by_cases h : k0 = k' <;>
        by_cases h' : k = k' <;>
          simp_all [setK, getK]

theorem getK_objAssign (s : JMap) (t : JMap) (k : String) :
    getK (objAssign t s) k =
      match lookupLast s k with
      | some v => some v
      | none => getK t k := by
  induction s generalizing t with
  | nil => simp [objAssign, lookupLast]
  | cons p rest ih =>
    obtain ⟨k0, v0⟩ := p
    have hstep : objAssign t ((k0, v0) :: rest) = objAssign (setK t k0 v0) rest := rfl
    rw [hstep, ih]
    cases hrest : lookupLast rest k with
    | some v => simp [lookupLast, hrest]
    | none =>
      simp only [lookupLast, hrest, getK_setK]
      by_cases h : k0 = k <;> simp [h]

theorem getK_projectFields (t : JMap) (r : UserRecord) :
    getK (projectFields t r) "displayName" = some (jOptStr r.displayName) ∧
    getK (projectFields t r) "username" = some (.str r.username) ∧
    getK (projectFields t r) "image" = some (jOptStr r.image) ∧
    getK (projectFields t r) "rank" = some (.str r.rank) ∧
    getK (projectFields t r) "roles" = some (.strList (r.roles.getD ["user"])) ∧
    getK (projectFields t r) "isBanned" = some (.bool r.isBanned) := by
  refine ⟨?_, ?_, ?_, ?_, ?_, ?_⟩ <;> simp +decide [projectFields, getK_setK]

theorem getK_projectFields_notin (t : JMap) (r : UserRecord) (k : String)
    (h : k ∉ refreshKeys) : getK (projectFields t r) k = getK t k := by
  simp only [refreshKeys, List.mem_cons, List.not_mem_nil, or_false, not_or] at h
  obtain ⟨h1, h2, h3, h4, h5, h6⟩ := h
  simp [projectFields, getK_setK, Ne.symm h1, Ne.symm h2, Ne.symm h3,
    Ne.symm h4, Ne.symm h5, Ne.symm h6]

theorem lowerStr_eq_empty_iff (s : String) : lowerStr s = "" ↔ s = "" := by
  obtain ⟨d⟩ := s
  simp [lowerStr, String.ext_iff]

theorem isAdminEmail_true_iff (env : Env) (e : String) :
    isAdminEmail env e = true ↔
      ∃ a, (env.admin1 = some a ∨ env.admin2 = some a) ∧ a ≠ "" ∧
        lowerStr a = lowerStr e := by
  unfold isAdminEmail
  rw [List.contains_eq_any_beq, List.any_eq_true]
  constructor
  · rintro ⟨x, hx, hbeq⟩
    rw [List.mem_map] at hx
    obtain ⟨a, ha, rfl⟩ := hx
    rw [List.mem_filter] at ha
    obtain ⟨ha1, ha2⟩ := ha
    rw [List.mem_filterMap] at ha1
    obtain ⟨o, ho, hoa⟩ := ha1
    simp only [List.mem_cons, List.not_mem_nil, or_false] at ho
    refine ⟨a, ?_, by simpa using ha2, (beq_iff_eq.mp hbeq).symm⟩
    rcases ho with ho | ho
    · exact Or.inl (by rw [ho] at hoa; simpa using hoa)
    · exact Or.inr (by rw [ho] at hoa; simpa using hoa)
  · rintro ⟨a, ha, hne, hlow⟩
    refine ⟨lowerStr a, ?_, by simp [hlow]⟩
    rw [List.mem_map]
    refine ⟨a, ?_, rfl⟩
    rw [List.mem_filter]
    refine ⟨?_, by simpa using hne⟩
    rw [List.mem_filterMap]
    exact ⟨some a, by rcases ha with h | h <;> simp [h], rfl⟩

theorem ne_empty_of_isAdminEmail {env : Env} {e : String}
    (h : isAdminEmail env e = true) : e ≠ "" := by
  rcases (isAdminEmail_true_iff env e).mp h with ⟨a, _, hne, hlow⟩
  intro he
  subst he
  exact hne ((lowerStr_eq_empty_iff a).mp hlow)

theorem rolesIncludesAdmin_iff (r : UserRecord) :
    rolesIncludesAdmin r = true ↔ "admin" ∈ rolesOf r := by
  cases h : r.roles <;> simp [rolesIncludesAdmin, rolesOf, h]

theorem updateExisting_escalates (env : Env) (e : String) (now : Nat)
    (r : UserRecord) (hadm : isAdminEmail env e = true)
    (hno : rolesIncludesAdmin r = false) :
    updateExisting env (some e) now r =
      { r with roles := some (rolesOf r ++ ["admin"]), rank := "elite",
               lastLoginAt := now } := by
  have hne := ne_empty_of_isAdminEmail hadm
  unfold updateExisting
  simp [hne, hadm, hno]

theorem updateExisting_noop (env : Env) (em : Option String) (now : Nat)
    (r : UserRecord) (h : rolesIncludesAdmin r = true) :
    updateExisting env em now r = { r with lastLoginAt := now } := by
  unfold updateExisting
  cases em with
  | none => rfl
  | some e =>
    by_cases h1 : e = ""
    · simp [h1]
    · by_cases h2 : isAdminEmail env e = true <;> simp [h1, h2, h]

theorem updateExisting_cases (env : Env) (em : Option String) (now : Nat)
    (r : UserRecord) :
    updateExisting env em now r = { r with lastLoginAt := now } ∨
    updateExisting env em now r =
      { r with roles := some (rolesOf r ++ ["admin"]), rank := "elite",
               lastLoginAt := now } := by
  unfold updateExisting
  cases em with
  | none => left; rfl
  | some e =>
    by_cases h1 : e = ""
    · left; simp [h1]
    · by_cases h2 : isAdminEmail env e = true
      · by_cases h3 : rolesIncludesAdmin r = true
        · left; simp [h1, h2, h3]
        · right; simp [h1, h2, h3]
      · left; simp [h1, h2]

theorem updateExisting_id (env : Env) (em : Option String) (now : Nat)
    (r : UserRecord) : (updateExisting env em now r).id = r.id := by
  rcases updateExisting_cases env em now r with h | h <;> rw [h]

theorem updateExisting_lastLoginAt (env : Env) (em : Option String)
    (now : Nat) (r : UserRecord) :
    (updateExisting env em now r).lastLoginAt = now := by
  rcases updateExisting_cases env em now r with h | h <;> rw [h]

theorem rolesOf_updateExisting_superset (env : Env) (em : Option String)
    (now : Nat) (r : UserRecord) :
    rolesOf r ⊆ rolesOf (updateExisting env em now r) := by
  rcases updateExisting_cases env em now r with h | h <;> rw [h]
  · exact fun a ha => ha
  · intro a ha
    simp only [rolesOf] at ha ⊢
    exact List.mem_append_left _ ha

theorem updateExisting_rank_elite (env : Env) (em : Option String)
    (now : Nat) (r : UserRecord) (h : r.rank = "elite") :
    (updateExisting env em now r).rank = "elite" := by
  rcases updateExisting_cases env em now r with hc | hc <;> rw [hc]
  exact h

theorem jwtCb_update_none_eq (db : DB) (tok : JMap) :
    jwtCb db tok none false (some "update") none =
      match getK tok "id" with
      | some (.str tid) =>
        match findById db tid with
        | some r => projectFields tok r
        | none => tok
      | _ => tok := by
  simp +decide [jwtCb]

theorem jwtCb_update_some_eq (db : DB) (tok s : JMap) :
    jwtCb db tok none false (some "update") (some s) =
      objAssign (jwtCb db tok none false (some "update") none) s := by
  simp +decide [jwtCb]

/-! ## Claim theorems -/

/-- C9: with neither admin allow-list environment entry configured,
`isAdminEmail` returns `false`; and in general it returns `true` exactly
when the lower-casing of the input email equals the lower-casing of some
configured, non-empty allow-list entry — membership is case-insensitive. -/
theorem isAdminEmail_unconfigured_false_and_case_insensitive (env : Env)
    (e : String) :
    ((env.admin1 = none ∧ env.admin2 = none) → isAdminEmail env e = false) ∧
    (isAdminEmail env e = true ↔
      ∃ a, (env.admin1 = some a ∨ env.admin2 = some a) ∧ a ≠ "" ∧
        lowerStr a = lowerStr e) := by
  constructor
  · rintro ⟨h1, h2⟩
    simp [isAdminEmail, h1, h2]
  · exact isAdminEmail_true_iff env e

theorem isAdminEmail_unconfigured_false_and_case_insensitive_witness :
    ((Env.mk none none).admin1 = none ∧ (Env.mk none none).admin2 = none) ∧
    isAdminEmail ⟨none, none⟩ "a@b.c" = false :=
  ⟨⟨rfl, rfl⟩,
    (isAdminEmail_unconfigured_false_and_case_insensitive ⟨none, none⟩
      "a@b.c").1 ⟨rfl, rfl⟩⟩

/-- C10: when the store lookup by id finds no record, the `jwt` callback
returns the token with every field unchanged — both at initial issuance
(`user` and `account` present) and on an `"update"` trigger with no
session payload. -/
theorem jwt_missing_record_leaves_token (db : DB) (tok : JMap) (uid : String)
    (h1 : findById db uid = none)
    (h2 : ∀ s, getK tok "id" = some (.str s) → findById db s = none) :
    jwtCb db tok (some uid) true none none = tok ∧
    jwtCb db tok none false (some "update") none = tok := by
  constructor
  · simp +decide [jwtCb, h1]
  · simp only [jwtCb]
    cases hid : getK tok "id" with
    | none => simp
    | some v =>
      cases v with
      | str s => simp [h2 s hid]
      | bool b => simp
      | strList l => simp
      | undefined => simp

/-- C1: for an email with no matching record, a successful sign-in via
provider `discord` or `google` appends exactly one new record, whose email
is the lower-cased input email, whose gamification and preference fields
are the fixed defaults (level 1, zero counters, empty badge list,
`emailNotifications` false, `publicProfile` true, `isActive` true,
`isBanned` false), and whose rank/roles are `("elite", ["user","admin"])`
when the email is allow-listed and `("recruit", ["user"])` otherwise. -/
theorem signIn_new_user_creation (env : Env) (uname : String) (now : Nat)
    (provider : Option String) (u : AuthUser) (db : DB) (e : String)
    (hp : provider = some "discord" ∨ provider = some "google")
    (he : u.email = some e)
    (habs : findByEmail db (some (lowerStr e)) = none) :
    (signIn env noFailures uname now provider u db).allowed = true ∧
    (signIn env noFailures uname now provider u db).db.users
      = db.users ++ [mkNewUser env u uname now db.nextId] ∧
    (mkNewUser env u uname now db.nextId).email = some (lowerStr e) ∧
    (mkNewUser env u uname now db.nextId).level = 1 ∧
    (mkNewUser env u uname now db.nextId).stats = ⟨0, 0, 0, 0, 0, 0⟩ ∧
    (mkNewUser env u uname now db.nextId).badges = [] ∧
    (mkNewUser env u uname now db.nextId).preferences.emailNotifications
      = false ∧
    (mkNewUser env u uname now db.nextId).preferences.publicProfile = true ∧
    (mkNewUser env u uname now db.nextId).isActive = true ∧
    (mkNewUser env u uname now db.nextId).isBanned = false ∧
    (isAdminEmail env e = true →
      (mkNewUser env u uname now db.nextId).rank = "elite" ∧
      (mkNewUser env u uname now db.nextId).roles = some ["user", "admin"]) ∧
    (isAdminEmail env e = false →
      (mkNewUser env u uname now db.nextId).rank = "recruit" ∧
      (mkNewUser env u uname now db.nextId).roles = some ["user"]) := by
  have hmail : u.email.map lowerStr = some (lowerStr e) := by simp [he]
  have hge : u.email.getD "" = e := by simp [he]
  have hsi : signIn env noFailures uname now provider u db =
      ⟨true, ⟨db.users ++ [mkNewUser env u uname now db.nextId],
          db.nextId + 1⟩,
        { u with id := some (toString db.nextId) },
        [.connect, .findOne, .saveNew]⟩ := by
    rcases hp with hp | hp <;> subst hp <;>
      simp +decide [signIn, noFailures, hmail, habs]
  refine ⟨by rw [hsi], by rw [hsi], by simp [mkNewUser, he], rfl, rfl, rfl,
    rfl, rfl, rfl, rfl, ?_, ?_⟩
  · intro h
    constructor <;> simp [mkNewUser, hge, h]
  · intro h
    constructor <;> simp [mkNewUser, hge, h]

theorem signIn_new_user_creation_witness :
    uW.email = some "Admin@X.com" ∧
    findByEmail ⟨[], 0⟩ (some (lowerStr "Admin@X.com")) = none ∧
    ((signIn envW noFailures "gen" 9 (some "discord") uW ⟨[], 0⟩).allowed
        = true ∧
      (signIn envW noFailures "gen" 9 (some "discord") uW ⟨[], 0⟩).db.users
        = ([] : List UserRecord) ++ [mkNewUser envW uW "gen" 9 0]) :=
  ⟨rfl, rfl,
    (signIn_new_user_creation envW "gen" 9 (some "discord") uW ⟨[], 0⟩
        "Admin@X.com" (Or.inl rfl) rfl rfl).1,
    (signIn_new_user_creation envW "gen" 9 (some "discord") uW ⟨[], 0⟩
        "Admin@X.com" (Or.inl rfl) rfl rfl).2.1⟩

/-- C2: for an existing record signed in via `discord`/`google`, when the
email is allow-listed and the record's role list does not contain
`"admin"`, the callback appends `"admin"` and sets rank to `"elite"`;
when the role list already contains `"admin"`, roles and rank are left
unchanged.  The updated record is what the callback saves to the store. -/
theorem signIn_existing_admin_escalation (env : Env) (uname : String)
    (now : Nat) (provider : Option String) (u : AuthUser) (db : DB)
    (e : String) (r : UserRecord)
    (hp : provider = some "discord" ∨ provider = some "google")
    (he : u.email = some e)
    (hfound : findByEmail db (some (lowerStr e)) = some r) :
    (updateExisting env u.email now r)
        ∈ (signIn env noFailures uname now provider u db).db.users ∧
    (isAdminEmail env e = true → "admin" ∉ rolesOf r →
      (updateExisting env u.email now r).roles
          = some (rolesOf r ++ ["admin"]) ∧
      (updateExisting env u.email now r).rank = "elite") ∧
    ("admin" ∈ rolesOf r →
      (updateExisting env u.email now r).roles = r.roles ∧
      (updateExisting env u.email now r).rank = r.rank) := by
  have hmail : u.email.map lowerStr = some (lowerStr e) := by simp [he]
  have hsi : signIn env noFailures uname now provider u db =
      ⟨true, saveExistingRec db (updateExisting env u.email now r),
        { u with id := some (toString r.id) },
        [.connect, .findOne, .saveExisting]⟩ := by
    rcases hp with hp | hp <;> subst hp <;>
      simp +decide [signIn, noFailures, hmail, hfound]
  refine ⟨?_, ?_, ?_⟩
  · rw [hsi]
    have hr : r ∈ db.users := List.mem_of_find?_eq_some hfound
    have hmem := List.mem_map_of_mem
      (fun x => if x.id == (updateExisting env u.email now r).id
        then updateExisting env u.email now r else x) hr
    simpa [saveExistingRec, updateExisting_id] using hmem
  · intro hadm hno
    rw [he, updateExisting_escalates env e now r hadm
      (Bool.eq_false_iff.mpr (fun h => hno ((rolesIncludesAdmin_iff r).mp h)))]
    exact ⟨rfl, rfl⟩
  · intro hmem
    rw [updateExisting_noop env u.email now r
      ((rolesIncludesAdmin_iff r).mpr hmem)]
    exact ⟨rfl, rfl⟩

theorem signIn_existing_admin_escalation_witness :
    uW.email = some "Admin@X.com" ∧
    findByEmail dbW (some (lowerStr "Admin@X.com")) = some rW ∧
    isAdminEmail envW "Admin@X.com" = true ∧
    ("admin" ∉ rolesOf rW) ∧
    ((updateExisting envW uW.email 9 rW).roles
        = some (rolesOf rW ++ ["admin"]) ∧
      (updateExisting envW uW.email 9 rW).rank = "elite") :=
  ⟨rfl, by decide, by decide, by decide,
    (signIn_existing_admin_escalation envW "gen" 9 (some "discord") uW dbW
        "Admin@X.com" rW (Or.inl rfl) rfl (by decide)).2.1
      (by decide) (by decide)⟩

/-- C3: running the existing-record branch of the `signIn` callback twice
with an allow-listed email, starting from a record whose role list has no
duplicates, leaves exactly one `"admin"` entry in the role list. -/
theorem signIn_double_escalation_single_admin (env : Env) (e : String)
    (n1 n2 : Nat) (r : UserRecord)
    (hadm : isAdminEmail env e = true)
    (hnd : (rolesOf r).Nodup) :
    (rolesOf (updateExisting env (some e) n2
        (updateExisting env (some e) n1 r))).count "admin" = 1 := by
  by_cases hmem : "admin" ∈ rolesOf r
  · have h1 : rolesIncludesAdmin r = true := (rolesIncludesAdmin_iff r).mpr hmem
    rw [updateExisting_noop env (some e) n1 r h1]
    have h2 : rolesIncludesAdmin { r with lastLoginAt := n1 } = true := by
      simpa [rolesIncludesAdmin] using h1
    rw [updateExisting_noop env (some e) n2 _ h2]
    simpa [rolesOf] using List.count_eq_one_of_mem hnd hmem
  · have h1 : rolesIncludesAdmin r = false :=
      Bool.eq_false_iff.mpr (fun h => hmem ((rolesIncludesAdmin_iff r).mp h))
    rw [updateExisting_escalates env e n1 r hadm h1]
    have h2 : rolesIncludesAdmin
        { r with roles := some (rolesOf r ++ ["admin"]), rank := "elite",
                 lastLoginAt := n1 } = true := by
      apply (rolesIncludesAdmin_iff _).mpr
      simp [rolesOf]
    rw [updateExisting_noop env (some e) n2 _ h2]
    have hz : (rolesOf r).count "admin" = 0 :=
      List.count_eq_zero.mpr hmem
    simp only [rolesOf] at hz
    simp [rolesOf, List.count_append, hz]

theorem signIn_double_escalation_single_admin_witness :
    isAdminEmail envW "Admin@X.com" = true ∧
    (rolesOf rW).Nodup ∧
    (rolesOf (updateExisting envW (some "Admin@X.com") 2
        (updateExisting envW (some "Admin@X.com") 1 rW))).count "admin" = 1 :=
  ⟨by decide, by decide,
    signIn_double_escalation_single_admin envW "Admin@X.com" 1 2 rW
      (by decide) (by decide)⟩

/-- C4: for an existing record, the `signIn` callback (under any store
failure behaviour) never removes a role and never regresses rank from
`"elite"`: the store afterwards holds a record with the same id whose
role list is a superset of the old one and whose rank is still `"elite"`
if it was. -/
theorem signIn_never_demotes (env : Env) (fl : Failures) (uname : String)
    (now : Nat) (provider : Option String) (u : AuthUser) (db : DB)
    (e : String) (r : UserRecord)
    (hp : provider = some "discord" ∨ provider = some "google")
    (he : u.email = some e)
    (hfound : findByEmail db (some (lowerStr e)) = some r) :
    ∃ r' ∈ (signIn env fl uname now provider u db).db.users,
      r'.id = r.id ∧ rolesOf r ⊆ rolesOf r' ∧
      (r.rank = "elite" → r'.rank = "elite") := by
  have hmail : u.email.map lowerStr = some (lowerStr e) := by simp [he]
  have hr : r ∈ db.users := List.mem_of_find?_eq_some hfound
  have hkey : (signIn env fl uname now provider u db).db = db ∨
      (signIn env fl uname now provider u db).db
        = saveExistingRec db (updateExisting env u.email now r) := by
    rcases hp with hp | hp <;> subst hp <;>
      cases hcf : fl.connectFails <;> cases hff : fl.findOneFails <;>
        cases hsf : fl.saveExistingFails <;>
          simp +decide [signIn, hmail, hfound, hcf, hff, hsf]
  rcases hkey with hdb | hdb
  · exact ⟨r, by rw [hdb]; exact hr, rfl, fun a ha => ha, fun h => h⟩
  · refine ⟨updateExisting env u.email now r, ?_, updateExisting_id _ _ _ _,
      rolesOf_updateExisting_superset _ _ _ _,
      updateExisting_rank_elite _ _ _ _⟩
    rw [hdb]
    have hmem := List.mem_map_of_mem
      (fun x => if x.id == (updateExisting env u.email now r).id
        then updateExisting env u.email now r else x) hr
    simpa [saveExistingRec, updateExisting_id] using hmem

theorem signIn_never_demotes_witness :
    uW.email = some "Admin@X.com" ∧
    findByEmail dbW (some (lowerStr "Admin@X.com")) = some rW ∧
    ∃ r' ∈ (signIn envW noFailures "gen" 9 (some "google") uW dbW).db.users,
      r'.id = rW.id ∧ rolesOf rW ⊆ rolesOf r' ∧
      (rW.rank = "elite" → r'.rank = "elite") :=
  ⟨rfl, by decide,
    signIn_never_demotes envW noFailures "gen" 9 (some "google") uW dbW
      "Admin@X.com" rW (Or.inr rfl) rfl (by decide)⟩

/-- C5: on a successful sign-in for an existing record via
`discord`/`google`, the saved record's `lastLoginAt` is the current time
and the trace holds exactly one save, regardless of whether roles or rank
changed. -/
theorem signIn_existing_saves_once (env : Env) (uname : String) (now : Nat)
    (provider : Option String) (u : AuthUser) (db : DB) (e : String)
    (r : UserRecord)
    (hp : provider = some "discord" ∨ provider = some "google")
    (he : u.email = some e)
    (hfound : findByEmail db (some (lowerStr e)) = some r) :
    (signIn env noFailures uname now provider u db).allowed = true ∧
    (signIn env noFailures uname now provider u db).trace
      = [.connect, .findOne, .saveExisting] ∧
    (signIn env noFailures uname now provider u db).trace.count
      .saveExisting = 1 ∧
    (updateExisting env u.email now r)
      ∈ (signIn env noFailures uname now provider u db).db.users ∧
    (updateExisting env u.email now r).lastLoginAt = now := by
  have hmail : u.email.map lowerStr = some (lowerStr e) := by simp [he]
  have hsi : signIn env noFailures uname now provider u db =
      ⟨true, saveExistingRec db (updateExisting env u.email now r),
        { u with id := some (toString r.id) },
        [.connect, .findOne, .saveExisting]⟩ := by
    rcases hp with hp | hp <;> subst hp <;>
      simp +decide [signIn, noFailures, hmail, hfound]
  refine ⟨by rw [hsi], by rw [hsi], by rw [hsi]; rfl, ?_,
    updateExisting_lastLoginAt _ _ _ _⟩
  rw [hsi]
  have hr : r ∈ db.users := List.mem_of_find?_eq_some hfound
  have hmem := List.mem_map_of_mem
    (fun x => if x.id == (updateExisting env u.email now r).id
      then updateExisting env u.email now r else x) hr
  simpa [saveExistingRec, updateExisting_id] using hmem

theorem signIn_existing_saves_once_witness :
    uW.email = some "Admin@X.com" ∧
    findByEmail dbW (some (lowerStr "Admin@X.com")) = some rW ∧
    ((signIn envW noFailures "gen" 9 (some "discord") uW dbW).allowed
        = true ∧
      (signIn envW noFailures "gen" 9 (some "discord") uW dbW).trace
        = [.connect, .findOne, .saveExisting] ∧
      (updateExisting envW uW.email 9 rW).lastLoginAt = 9) :=
  ⟨rfl, by decide,
    (signIn_existing_saves_once envW "gen" 9 (some "discord") uW dbW
        "Admin@X.com" rW (Or.inl rfl) rfl (by decide)).1,
    (signIn_existing_saves_once envW "gen" 9 (some "discord") uW dbW
        "Admin@X.com" rW (Or.inl rfl) rfl (by decide)).2.1,
    (signIn_existing_saves_once envW "gen" 9 (some "discord") uW dbW
        "Admin@X.com" rW (Or.inl rfl) rfl (by decide)).2.2.2.2⟩

/-- C6: if a store operation inside the `signIn` callback throws for
provider `discord` or `google`, the callback returns `false` (sign-in
refused) rather than propagating, the store and identity are left as they
were, and no store operation is retried (the trace has no duplicate). -/
theorem signIn_store_error_refused (env : Env) (fl : Failures)
    (uname : String) (now : Nat) (provider : Option String) (u : AuthUser)
    (db : DB)
    (hp : provider = some "discord" ∨ provider = some "google")
    (hf : failureHit fl db (u.email.map lowerStr)) :
    (signIn env fl uname now provider u db).allowed = false ∧
    (signIn env fl uname now provider u db).db = db ∧
    (signIn env fl uname now provider u db).user = u ∧
    (signIn env fl uname now provider u db).trace.Nodup := by
  rcases hf with h1 | ⟨h1, h2⟩ | ⟨h1, h2, h3, h4⟩ | ⟨h1, h2, ⟨r, h3⟩, h4⟩ <;>
    rcases hp with hp | hp <;> subst hp <;>
      simp +decide [signIn, *]

theorem signIn_store_error_refused_witness :
    failureHit ⟨true, false, false, false⟩ dbW (uW.email.map lowerStr) ∧
    ((signIn envW ⟨true, false, false, false⟩ "gen" 9 (some "discord") uW
          dbW).allowed = false ∧
      (signIn envW ⟨true, false, false, false⟩ "gen" 9 (some "discord") uW
          dbW).db = dbW ∧
      (signIn envW ⟨true, false, false, false⟩ "gen" 9 (some "discord") uW
          dbW).user = uW ∧
      (signIn envW ⟨true, false, false, false⟩ "gen" 9 (some "discord") uW
          dbW).trace.Nodup) :=
  ⟨Or.inl rfl,
    signIn_store_error_refused envW ⟨true, false, false, false⟩ "gen" 9
      (some "discord") uW dbW (Or.inl rfl) (Or.inl rfl)⟩

theorem jwt_missing_record_leaves_token_witness :
    findById (DB.mk [] 0) "1" = none ∧
    (jwtCb ⟨[], 0⟩ [("id", JVal.str "0"), ("sub", JVal.str "x")]
        (some "1") true none none
      = [("id", JVal.str "0"), ("sub", JVal.str "x")] ∧
     jwtCb ⟨[], 0⟩ [("id", JVal.str "0"), ("sub", JVal.str "x")]
        none false (some "update") none
      = [("id", JVal.str "0"), ("sub", JVal.str "x")]) :=
  ⟨rfl,
    jwt_missing_record_leaves_token ⟨[], 0⟩
      [("id", JVal.str "0"), ("sub", JVal.str "x")] "1" rfl (fun _ _ => rfl)⟩

/-- C7 counterexample: on an `"update"` trigger with no session payload
the `jwt` callback overwrites six token fields, not five — at this input
`displayName`, `username`, `image`, `rank`, `roles` and `isBanned` all
change while `id` stays, so no five-field set covers the overwritten
fields. -/
theorem jwt_refresh_overwrites_six_fields :
    getK (jwtCb dbC7 tokC7 none false (some "update") none) "displayName"
        ≠ getK tokC7 "displayName" ∧
    getK (jwtCb dbC7 tokC7 none false (some "update") none) "username"
        ≠ getK tokC7 "username" ∧
    getK (jwtCb dbC7 tokC7 none false (some "update") none) "image"
        ≠ getK tokC7 "image" ∧
    getK (jwtCb dbC7 tokC7 none false (some "update") none) "rank"
        ≠ getK tokC7 "rank" ∧
    getK (jwtCb dbC7 tokC7 none false (some "update") none) "roles"
        ≠ getK tokC7 "roles" ∧
    getK (jwtCb dbC7 tokC7 none false (some "update") none) "isBanned"
        ≠ getK tokC7 "isBanned" ∧
    getK (jwtCb dbC7 tokC7 none false (some "update") none) "id"
        = getK tokC7 "id" := by
  decide

/-- C7 (amended): on an `"update"` trigger with no session payload the
`jwt` callback re-fetches the record by the id stored in the token and
overwrites only the six projected fields (`displayName`, `username`,
`image`, `rank`, `roles`, `isBanned`), leaving every other token field —
including `token.id` — unchanged; when a session payload accompanies the
trigger, each field of the payload is merged into the token with the
payload value winning field by field. -/
theorem jwt_update_frame_and_merge (db : DB) (tok : JMap) (s : JMap)
    (k : String) (tid : String) (r : UserRecord) :
    (k ∉ refreshKeys →
      getK (jwtCb db tok none false (some "update") none) k = getK tok k) ∧
    (getK tok "id" = some (.str tid) → findById db tid = some r →
      (getK (jwtCb db tok none false (some "update") none) "displayName"
          = some (jOptStr r.displayName) ∧
       getK (jwtCb db tok none false (some "update") none) "username"
          = some (.str r.username) ∧
       getK (jwtCb db tok none false (some "update") none) "image"
          = some (jOptStr r.image) ∧
       getK (jwtCb db tok none false (some "update") none) "rank"
          = some (.str r.rank) ∧
       getK (jwtCb db tok none false (some "update") none) "roles"
          = some (.strList (r.roles.getD ["user"])) ∧
       getK (jwtCb db tok none false (some "update") none) "isBanned"
          = some (.bool r.isBanned))) ∧
    (∀ v, lookupLast s k = some v →
      getK (jwtCb db tok none false (some "update") (some s)) k = some v) := by
  refine ⟨?_, ?_, ?_⟩
  · intro hk
    rw [jwtCb_update_none_eq]
    cases hid : getK tok "id" with
    | none => rfl
    | some v =>
      cases v with
      | str tid' =>
        cases hf : findById db tid' with
        | none => simp [hf]
        | some r' =>
          simp only [hf]
          exact getK_projectFields_notin tok r' k hk
      | bool b => rfl
      | strList l => rfl
      | undefined => rfl
  · intro hid hf
    rw [jwtCb_update_none_eq]
    simp only [hid, hf]
    exact getK_projectFields tok r
  · intro v hv
    rw [jwtCb_update_some_eq, getK_objAssign, hv]

theorem jwt_update_frame_and_merge_witness :
    ("id" ∉ refreshKeys) ∧
    getK tokC7 "id" = some (.str "0") ∧
    findById dbC7 "0" = some rC7 ∧
    lookupLast [("rank", JVal.str "x")] "rank" = some (JVal.str "x") ∧
    getK (jwtCb dbC7 tokC7 none false (some "update") none) "id"
      = getK tokC7 "id" ∧
    getK (jwtCb dbC7 tokC7 none false (some "update") none) "rank"
      = some (.str rC7.rank) ∧
    getK (jwtCb dbC7 tokC7 none false (some "update")
        (some [("rank", JVal.str "x")])) "rank" = some (JVal.str "x") :=
  ⟨by decide, by decide, by decide, by decide,
    (jwt_update_frame_and_merge dbC7 tokC7 [("rank", JVal.str "x")] "id"
        "0" rC7).1 (by decide),
    ((jwt_update_frame_and_merge dbC7 tokC7 [] "rank" "0" rC7).2.1
        (by decide) (by decide)).2.2.2.1,
    (jwt_update_frame_and_merge dbC7 tokC7 [("rank", JVal.str "x")] "rank"
        "0" rC7).2.2 (JVal.str "x") (by decide)⟩

/-- C8 counterexample: the `session` callback writes seven fields of
`session.user`, not six — at this input `id`, `username`, `displayName`,
`image`, `rank`, `roles` and `isBanned` all differ from their values
before the call, so a seventh modified field exists for any six-field
reading. -/
theorem session_modifies_seven_fields :
    getK ((sessionCb sessC8 (some tokC8)).user.getD []) "id"
        ≠ getK ([] : JMap) "id" ∧
    getK ((sessionCb sessC8 (some tokC8)).user.getD []) "username"
        ≠ getK ([] : JMap) "username" ∧
    getK ((sessionCb sessC8 (some tokC8)).user.getD []) "displayName"
        ≠ getK ([] : JMap) "displayName" ∧
    getK ((sessionCb sessC8 (some tokC8)).user.getD []) "image"
        ≠ getK ([] : JMap) "image" ∧
    getK ((sessionCb sessC8 (some tokC8)).user.getD []) "rank"
        ≠ getK ([] : JMap) "rank" ∧
    getK ((sessionCb sessC8 (some tokC8)).user.getD []) "roles"
        ≠ getK ([] : JMap) "roles" ∧
    getK ((sessionCb sessC8 (some tokC8)).user.getD []) "isBanned"
        ≠ getK ([] : JMap) "isBanned" := by
  decide

/-- C8 (amended): the `session` callback is a pure copy with no store
access: each of the seven copied user fields (`id`, `username`,
`displayName`, `image`, `rank`, `roles`, `isBanned`) of the outward
session object equals the corresponding token field, and no other field
of the session — neither other keys of `session.user` nor the rest of the
session object — is modified. -/
theorem session_pure_copy (sess : SessionObj) (u : JMap) (t : JMap)
    (k : String) (hu : sess.user = some u) :
    (sessionCb sess (some t)).expires = sess.expires ∧
    ∃ u', (sessionCb sess (some t)).user = some u' ∧
      getK u' "id" = some (jget t "id") ∧
      getK u' "username" = some (jget t "username") ∧
      getK u' "displayName" = some (jget t "displayName") ∧
      getK u' "image" = some (jget t "image") ∧
      getK u' "rank" = some (jget t "rank") ∧
      getK u' "roles" = some (jget t "roles") ∧
      getK u' "isBanned" = some (jget t "isBanned") ∧
      (k ∉ sessionKeys → getK u' k = getK u k) := by
  have hs : sessionCb sess (some t) =
      { sess with user := some (setK (setK (setK (setK (setK (setK (setK u
          "id" (jget t "id")) "username" (jget t "username"))
          "displayName" (jget t "displayName")) "image" (jget t "image"))
          "rank" (jget t "rank")) "roles" (jget t "roles"))
          "isBanned" (jget t "isBanned")) } := by
    simp [sessionCb, hu]
  rw [hs]
  refine ⟨rfl, _, rfl, ?_, ?_, ?_, ?_, ?_, ?_, ?_, ?_⟩
  · simp +decide [getK_setK]
  · simp +decide [getK_setK]
  · simp +decide [getK_setK]
  · simp +decide [getK_setK]
  · simp +decide [getK_setK]
  · simp +decide [getK_setK]
  · simp +decide [getK_setK]
  · intro hk
    simp only [sessionKeys, List.mem_cons, List.not_mem_nil, or_false,
      not_or] at hk
    obtain ⟨h1, h2, h3, h4, h5, h6, h7⟩ := hk
    simp [getK_setK, Ne.symm h1, Ne.symm h2, Ne.symm h3, Ne.symm h4,
      Ne.symm h5, Ne.symm h6, Ne.symm h7]

theorem session_pure_copy_witness :
    sessC8.user = some ([] : JMap) ∧
    ((sessionCb sessC8 (some tokC8)).expires = sessC8.expires ∧
      ∃ u', (sessionCb sessC8 (some tokC8)).user = some u' ∧
        getK u' "id" = some (jget tokC8 "id") ∧
        getK u' "username" = some (jget tokC8 "username") ∧
        getK u' "displayName" = some (jget tokC8 "displayName") ∧
        getK u' "image" = some (jget tokC8 "image") ∧
        getK u' "rank" = some (jget tokC8 "rank") ∧
        getK u' "roles" = some (jget tokC8 "roles") ∧
        getK u' "isBanned" = some (jget tokC8 "isBanned") ∧
        ("email" ∉ sessionKeys → getK u' "email" = getK ([] : JMap) "email")) :=
  ⟨rfl, session_pure_copy sessC8 [] tokC8 "email" rfl⟩

end ExfilZone
